import Mathlib

/-!
Verification development for the lightning-schedule generator
(`generate.go`).  The Go program is shallowly embedded: Go strings become
`List Char`, Go slices become `List`/`Array`, pointers to reference-table
rows become plain values, and the global lookup tables (`AllLocations`,
`AllTeams`) become explicit parameters.  Every definition is translated
from the Go source; functions named after Go functions keep their names.
-/

/-- Go strings, modelled as lists of characters (the program only ever
compares and slices them; for the `%x` byte dump we encode UTF-8
explicitly). -/
abbrev Str : Type := List Char

/-- Convert a Lean string literal to the embedding's string type. -/
def str (s : String) : Str := s.data

/-- `unicode.IsSpace`, the class trimmed by Go's `strings.TrimSpace`. -/
def isSpaceGo (c : Char) : Bool :=
  c = ' ' ∨ c = '\t' ∨ c = '\n' ∨ c = (Char.ofNat 11) ∨ c = (Char.ofNat 12) ∨
  c = (Char.ofNat 13) ∨ c = (Char.ofNat 0x85) ∨ c = (Char.ofNat 0xA0) ∨
  c = (Char.ofNat 0x1680) ∨ (0x2000 ≤ c.toNat ∧ c.toNat ≤ 0x200A) ∨
  c = (Char.ofNat 0x2028) ∨ c = (Char.ofNat 0x2029) ∨ c = (Char.ofNat 0x202F) ∨
  c = (Char.ofNat 0x205F) ∨ c = (Char.ofNat 0x3000)

/-- Go `strings.TrimSpace`. -/
def trimSpace (s : Str) : Str :=
  ((s.dropWhile isSpaceGo).reverse.dropWhile isSpaceGo).reverse

/-- Value of an ASCII digit character. -/
def digitVal (c : Char) : Nat := c.toNat - '0'.toNat

/-- Numeric value of a digit string (most significant first). -/
def natOfDigits (s : Str) : Nat := s.foldl (fun acc c => acc * 10 + digitVal c) 0

/-- Go `strconv.Atoi`: optional sign, then one or more digits, nothing else.
(Out-of-range clamping is irrelevant at the program's score magnitudes.) -/
def atoiGo (s : Str) : Option Int :=
  match s with
  | '-' :: rest =>
      if rest ≠ [] ∧ rest.all Char.isDigit then some (-(natOfDigits rest : Int)) else none
  | '+' :: rest =>
      if rest ≠ [] ∧ rest.all Char.isDigit then some (natOfDigits rest) else none
  | _ => if s ≠ [] ∧ s.all Char.isDigit then some (natOfDigits s) else none

/-- Go `strings.Index`: index of the first occurrence of `sub` in `s`,
`none` where Go returns -1. -/
def indexOfSub (s sub : Str) : Option Nat :=
  match s with
  | [] => if sub = [] then some 0 else none
  | c :: rest =>
      if sub.isPrefixOf (c :: rest) then some 0
      else (indexOfSub rest sub).map (· + 1)

/-- A parsed Go `time.Time` as the program uses it: a pure calendar date
(all parsed times-of-day in the date fields are midnight). -/
structure Date where
  year : Nat
  month : Nat
  day : Nat
deriving DecidableEq, Repr

/-- The far-future sentinel `time.Date(2099, 12, 31, ...)` returned by
`parseDateForSorting` when no layout matches. -/
def sentinelDate : Date := ⟨2099, 12, 31⟩

/-- Gregorian leap year, as Go's `isLeap`. -/
def isLeap (y : Nat) : Bool := y % 4 == 0 && (y % 100 != 0 || y % 400 == 0)

/-- Days in a month, as Go's `daysIn` (used by `time.Parse` to validate the
day of month). -/
def daysIn (m y : Nat) : Nat :=
  if m = 2 then (if isLeap y then 29 else 28)
  else if m = 4 ∨ m = 6 ∨ m = 9 ∨ m = 11 then 30
  else 31

/-- Days since 0000-03-01 (proleptic Gregorian).  Chronological order of
`time.Time` values produced by the program's date parsing coincides with
the order of this count, which is what `Before`/`Equal` compare. -/
def daysFromCivil (y m d : Nat) : Nat :=
  let y2 := if m ≤ 2 then y - 1 else y
  let era := y2 / 400
  let yoe := y2 % 400
  let doy := (153 * (if m > 2 then m - 3 else m + 9) + 2) / 5 + d - 1
  era * 146097 + yoe * 365 + yoe / 4 - yoe / 100 + doy

/-- Day count of a parsed date (`time.Time` comparison key). -/
def Date.days (d : Date) : Nat := daysFromCivil d.year d.month d.day

/-- Go `time.Time.Before` on the program's parsed dates. -/
def dateBefore (a b : Date) : Bool := a.days < b.days

/-- Go `time.Time.Equal` on the program's parsed dates. -/
def dateEqual (a b : Date) : Bool := a.days == b.days

/-- Civil date back from a day count (inverse of `daysFromCivil`), used by
`ISOWeek` below. -/
def civilFromDays (z : Nat) : Nat × Nat × Nat :=
  let era := z / 146097
  let doe := z % 146097
  let yoe := (doe - doe / 1460 + doe / 36524 - doe / 146096) / 365
  let y := yoe + era * 400
  let doy := doe - (365 * yoe + yoe / 4 - yoe / 100)
  let mp := (5 * doy + 2) / 153
  let d := doy - (153 * mp + 2) / 5 + 1
  let m := if mp < 10 then mp + 3 else mp - 9
  (if m ≤ 2 then y + 1 else y, m, d)

/-- ISO weekday of a day count, Monday = 1 .. Sunday = 7
(day 0 = 0000-03-01 is a Wednesday). -/
def isoWeekday (n : Nat) : Nat := (n % 7 + 2) % 7 + 1

/-- Go `time.Time.ISOWeek`: move to the Thursday of the current week; the
ISO year is that Thursday's year and the week its ordinal-day / 7 + 1. -/
def isoWeekOfDays (n : Nat) : Nat × Nat :=
  let th := n + 4 - isoWeekday n
  let c := civilFromDays th
  let yday := th - daysFromCivil c.1 1 1
  (c.1, yday / 7 + 1)

/-- `ISOWeek` of a parsed date. -/
def Date.isoWeek (d : Date) : Nat × Nat := isoWeekOfDays d.days

/-- Go `time` package: full weekday names (syntax-checked by `Parse`,
value ignored). -/
def longDayNames : List Str :=
  [str "Sunday", str "Monday", str "Tuesday", str "Wednesday",
   str "Thursday", str "Friday", str "Saturday"]

/-- Go `time` package: full month names. -/
def longMonthNames : List Str :=
  [str "January", str "February", str "March", str "April", str "May",
   str "June", str "July", str "August", str "September", str "October",
   str "November", str "December"]

/-- Go `time.match`: ASCII case-insensitive comparison (both sides OR-ed
with 0x20). -/
def chMatch (a b : Char) : Bool := (a.toNat ||| 32) == (b.toNat ||| 32)

/-- Strip `p` from the front of `s` under `time.match`'s case folding. -/
def stripCaseFold : Str → Str → Option Str
  | [], s => some s
  | _, [] => none
  | a :: p, b :: s => if chMatch a b then stripCaseFold p s else none

/-- Go `time.lookup`: first table entry that is a (case-folded) prefix of
the value; returns its index and the rest of the value. -/
def lookupName (tab : List Str) (val : Str) : Option (Nat × Str) :=
  match tab with
  | [] => none
  | t :: rest =>
      match stripCaseFold t val with
      | some r => some (0, r)
      | none => (lookupName rest val).map (fun p => (p.1 + 1, p.2))

/-- Strip an exact literal layout separator. -/
def stripLit (lit s : Str) : Option Str :=
  if lit.isPrefixOf s then some (s.drop lit.length) else none

/-- Go `time.getnum`: one or two digits (`fixed` requires exactly two). -/
def getnum (s : Str) (fixed : Bool) : Option (Nat × Str) :=
  match s with
  | c1 :: c2 :: rest =>
      if c1.isDigit then
        if c2.isDigit then some (digitVal c1 * 10 + digitVal c2, rest)
        else if fixed then none
        else some (digitVal c1, c2 :: rest)
      else none
  | [c1] => if c1.isDigit ∧ ¬fixed then some (digitVal c1, []) else none
  | [] => none

/-- Layout verb `2006`: exactly four digits. -/
def getYear4 (s : Str) : Option (Nat × Str) :=
  match s with
  | c1 :: c2 :: c3 :: c4 :: rest =>
      if c1.isDigit ∧ c2.isDigit ∧ c3.isDigit ∧ c4.isDigit then
        some (natOfDigits [c1, c2, c3, c4], rest)
      else none
  | _ => none

/-- Layout verb `06`: two characters parsed by `time.atoi` (a sign counts),
69..99 mapped to 19xx, the rest to 20xx. -/
def getYear2 (s : Str) : Option (Nat × Str) :=
  match s with
  | c1 :: c2 :: rest =>
      let v : Option Int :=
        if c1.isDigit ∧ c2.isDigit then some ((digitVal c1 * 10 + digitVal c2 : Nat) : Int)
        else if c1 = '-' ∧ c2.isDigit then some (-(digitVal c2 : Int))
        else if c1 = '+' ∧ c2.isDigit then some ((digitVal c2 : Nat) : Int)
        else none
      v.map fun y => ((if y ≥ 69 then 1900 + y else 2000 + y).toNat, rest)
  | _ => none

/-- `time.Parse` with layout `"Monday, January 2, 2006"` (or with `02`,
a fixed two-digit day, when `zeroDay`).  The weekday name is parsed and
ignored; the day of month is range-checked; the whole value must be
consumed. -/
def parseLongDate (zeroDay : Bool) (s : Str) : Option Date :=
  match lookupName longDayNames s with
  | none => none
  | some (_, s) =>
    match stripLit (str ", ") s with
    | none => none
    | some s =>
      match lookupName longMonthNames s with
      | none => none
      | some (mIdx, s) =>
        match stripLit (str " ") s with
        | none => none
        | some s =>
          match getnum s zeroDay with
          | none => none
          | some (day, s) =>
            match stripLit (str ", ") s with
            | none => none
            | some s =>
              match getYear4 s with
              | none => none
              | some (year, s) =>
                let month := mIdx + 1
                if s = [] ∧ 1 ≤ day ∧ day ≤ daysIn month year then
                  some ⟨year, month, day⟩
                else none

/-- `time.Parse` with the numeric layouts `"1/2/2006"`, `"01/02/2006"`
(`zeroPad`: fixed two-digit month and day) and `"1/2/06"` (`year2`).
The month is range-checked to 1..12, the day against the month's length;
the whole value must be consumed. -/
def parseSlashDate (zeroPad year2 : Bool) (s : Str) : Option Date :=
  match getnum s zeroPad with
  | none => none
  | some (month, s) =>
    if month = 0 ∨ month > 12 then none
    else
      match stripLit (str "/") s with
      | none => none
      | some s =>
        match getnum s zeroPad with
        | none => none
        | some (day, s) =>
          match stripLit (str "/") s with
          | none => none
          | some s =>
            match (if year2 then getYear2 s else getYear4 s) with
            | none => none
            | some (year, s) =>
              if s = [] ∧ 1 ≤ day ∧ day ≤ daysIn month year then
                some ⟨year, month, day⟩
              else none

/-- Go `parseDateForSorting`: try the five layouts in order; on total
failure return the far-future sentinel date. -/
def parseDateForSorting (dateStr : Str) : Date :=
  match parseLongDate false dateStr with
  | some d => d
  | none =>
    match parseLongDate true dateStr with
    | some d => d
    | none =>
      match parseSlashDate false false dateStr with
      | some d => d
      | none =>
        match parseSlashDate true false dateStr with
        | some d => d
        | none =>
          match parseSlashDate false true dateStr with
          | some d => d
          | none => sentinelDate

/-- `\d+` run: (maximal digit prefix, rest). -/
def takeDigits (s : Str) : Str × Str := (s.takeWhile Char.isDigit, s.dropWhile Char.isDigit)

/-- RE2 `\s` character class: `[\t\n\f\r ]`. -/
def isSpaceRE (c : Char) : Bool :=
  c = '\t' ∨ c = '\n' ∨ c = (Char.ofNat 12) ∨ c = '\r' ∨ c = ' '

/-- Match of the program's time regexp `(\d+):(\d+)\s*(AM|PM)` anchored at
the start of `s`, returning the three capture groups.  Greedy `\d+`
followed by `:` (not a digit), `\d+` followed by `\s*` and then a letter
need no backtracking, so maximal-run scanning is exact. -/
def timeMatchAt (s : Str) : Option (Str × Str × Str) :=
  let p1 := takeDigits s
  if p1.1 = [] then none
  else
    match p1.2 with
    | ':' :: r2 =>
        let p2 := takeDigits r2
        if p2.1 = [] then none
        else
          match p2.2.dropWhile isSpaceRE with
          | 'A' :: 'M' :: _ => some (p1.1, p2.1, str "AM")
          | 'P' :: 'M' :: _ => some (p1.1, p2.1, str "PM")
          | _ => none
    | _ => none

/-- `regexp.FindStringSubmatch` for `(\d+):(\d+)\s*(AM|PM)`: leftmost
match's capture groups. -/
def findTimeMatch : Str → Option (Str × Str × Str)
  | [] => none
  | c :: rest =>
      match timeMatchAt (c :: rest) with
      | some r => some r
      | none => findTimeMatch rest

/-- Go `parseTimeToMinutes`: minutes after midnight of a `H:MM AM|PM`
string, 9999 when the regexp does not match. -/
def parseTimeToMinutes (timeStr : Str) : Nat :=
  match findTimeMatch timeStr with
  | some (h, m, ap) =>
      let hours0 := natOfDigits h
      let minutes := natOfDigits m
      let hours :=
        if ap == str "PM" && hours0 != 12 then hours0 + 12
        else if ap == str "AM" && hours0 == 12 then 0
        else hours0
      hours * 60 + minutes
  | none => 9999

/-- Go `formatTime`: drop a `:00` minutes part, keep any other minutes,
and join the pieces without the space ("4:00 PM" -> "4PM",
"9:30 AM" -> "9:30AM"); non-matching strings pass through. -/
def formatTime (timeStr : Str) : Str :=
  if timeStr = [] ∨ timeStr = str "TBD" then timeStr
  else
    match findTimeMatch timeStr with
    | some (h, m, ap) => if m = str "00" then h ++ ap else h ++ ':' :: (m ++ ap)
    | none => timeStr

/-- Go struct `Team` (the `Order` field is assigned 1, 2, ... by row in
`fetchTeams`). -/
structure Team where
  name : Str
  slug : Str
  cssClass : Str
  order : Nat
  cblLink1 : Str
  cblLink2 : Str
  cblName : Str
deriving DecidableEq, Repr

/-- Go struct `Location` (`Abbrev` is a Lean keyword, renamed `abbr`). -/
structure Location where
  abbr : Str
  name : Str
  address : Str
deriving DecidableEq, Repr

/-- Go struct `Game` (team and location pointers embedded by value). -/
structure Game where
  team : Team
  date : Str
  time : Str
  location : Option Location
  courtGymInfo : Str
  opponent : Str
  homeAway : Str
  score : Str
  result : Str
deriving DecidableEq, Repr

/-- Go struct `Note` (the `HTMLText` mirror of `Text` is dropped). -/
structure Note where
  date : Str
  text : Str
  teams : Str
deriving DecidableEq, Repr

/-- Go struct `ScheduleItem`: an `IsNote` flag plus two pointers of which
exactly one is set at every construction site, i.e. a tagged union. -/
inductive ScheduleItem where
  | game (g : Game)
  | note (n : Note)
deriving DecidableEq, Repr

/-- The `IsNote` flag. -/
def ScheduleItem.isNote : ScheduleItem → Bool
  | .game _ => false
  | .note _ => true

/-- The date string the sort comparator reads from an item. -/
def itemDateStr : ScheduleItem → Str
  | .game g => g.date
  | .note n => n.date

/-- Go `getCellValue`'s header loop, carrying the running column index. -/
def getCellValueAux : List Str → Nat → List Str → Str → Str
  | [], _, _, _ => []
  | h :: rest, i, record, headerName =>
      if trimSpace h = headerName then
        match record.get? i with
        | some v => trimSpace v
        | none => []
      else getCellValueAux rest (i + 1) record headerName

/-- Go `getCellValue`: the trimmed cell under the first header whose
trimmed name equals `headerName`; "" when no header matches or the row is
short. -/
def getCellValue (headers record : List Str) (headerName : Str) : Str :=
  getCellValueAux headers 0 record headerName

/-- Go `findLocationByName` with the `AllLocations` global as a
parameter; returns the resolved location (if any) and the sub-venue text
split off after the first `" - "`. -/
def findLocationByName (allLocations : List Location) (name0 : Str) :
    Option Location × Str :=
  let name := trimSpace name0
  if name = [] ∨ name = str "TBD" then (none, [])
  else
    let p :=
      match indexOfSub name (str " - ") with
      | some idx => (trimSpace (name.take idx), trimSpace (name.drop (idx + 3)))
      | none => (name, [])
    match allLocations.find? (fun l => l.name == p.1) with
    | some l => (some l, p.2)
    | none => (none, p.2)

/-- Go `findLocationByAbbrev`, same shape but matching the abbreviation
column. -/
def findLocationByAbbrev (allLocations : List Location) (abbrev0 : Str) :
    Option Location × Str :=
  let ab := trimSpace abbrev0
  if ab = [] ∨ ab = str "TBD" then (none, [])
  else
    let p :=
      match indexOfSub ab (str " - ") with
      | some idx => (trimSpace (ab.take idx), trimSpace (ab.drop (idx + 3)))
      | none => (ab, [])
    match allLocations.find? (fun l => l.abbr == p.1) with
    | some l => (some l, p.2)
    | none => (none, p.2)

/-- Go `findTeamByName` over the `AllTeams` global. -/
def findTeamByName (allTeams : List Team) (teamName : Str) : Option Team :=
  allTeams.find? (fun t => t.name == teamName)

/-- Score-to-result fragment of `fetchGoogleSheetGames`: split `"A-B"` on
every `-`, require exactly two integer parts, tag `W` when our side is
larger and `L` otherwise; parse failures give no tag. -/
def sheetGameResult (score : Str) : Str :=
  if score ≠ [] ∧ score ≠ str "-" then
    match score.splitOn '-' with
    | [p1, p2] =>
        match atoiGo (trimSpace p1), atoiGo (trimSpace p2) with
        | some ourScore, some theirScore =>
            if ourScore > theirScore then str "W" else str "L"
        | _, _ => []
    | _ => []
  else []

/-- Score fragment of `scrapeTeamSchedule` (both the visitor and the home
branch normalize to this: `our`/`their` are our side's and the opponent's
score cells).  `strconv.Atoi` errors are discarded, so a non-numeric cell
counts as 0.  Returns (score display, result tag). -/
def scrapeScoreResult (our their : Str) : Str × Str :=
  if our ≠ str "×" ∧ their ≠ str "×" ∧ our ≠ [] ∧ their ≠ [] then
    let ourScore := (atoiGo our).getD 0
    let theirScore := (atoiGo their).getD 0
    if ourScore > theirScore then
      (str "W " ++ our ++ str "-" ++ their, str "W")
    else
      (str "L " ++ our ++ str "-" ++ their, str "L")
  else ([], [])

/-- Go `<` on strings: lexicographic byte order (equal to code-point order
under UTF-8). -/
def strLt : Str → Str → Bool
  | [], [] => false
  | [], _ :: _ => true
  | _ :: _, [] => false
  | a :: as, b :: bs =>
      if a.toNat < b.toNat then true
      else if b.toNat < a.toNat then false
      else strLt as bs

/-- The `sort.Slice` comparator of `generateHTML` (lines 766-838): date
first, then notes before games, equal notes tied, and games by
time/TBD rules, team order and team name. -/
def scheduleItemLess (a b : ScheduleItem) : Bool :=
  let dateA := parseDateForSorting (itemDateStr a)
  let dateB := parseDateForSorting (itemDateStr b)
  if !(dateEqual dateA dateB) then dateBefore dateA dateB
  else
    match a, b with
    | .note _, .game _ => true
    | .game _, .note _ => false
    | .note _, .note _ => false
    | .game gameA, .game gameB =>
        let timeA := gameA.time
        let timeB := gameB.time
        let isTBDA := timeA == str "TBD" || timeA == []
        let isTBDB := timeB == str "TBD" || timeB == []
        if !isTBDA && !isTBDB then
          let timeMinA := parseTimeToMinutes timeA
          let timeMinB := parseTimeToMinutes timeB
          if timeMinA != timeMinB then timeMinA < timeMinB
          else if gameA.team.order != gameB.team.order then
            gameA.team.order < gameB.team.order
          else strLt gameA.team.name gameB.team.name
        else if isTBDA && isTBDB then
          if gameA.team.order != gameB.team.order then
            gameA.team.order < gameB.team.order
          else strLt gameA.team.name gameB.team.name
        else !isTBDA

/-!
Go's `sort.Slice` (Go >= 1.19): pattern-defeating quicksort over an
index/swap view of the slice, transcribed from `sort/zsortfunc.go`.
`sort.Slice` is NOT a stable sort; the program's comparator ties equal
items, so their relative order is whatever this algorithm produces.
Loops become fuel-indexed recursions; every fuel bound strictly exceeds
the iterations the Go loop can make, so the fuel case is never the one
that returns.
-/

variable {α : Type}

/-- One cell swap (`reflect.Swapper`); out-of-range indices never occur. -/
def aswap (xs : Array α) (i j : Nat) : Array α :=
  match xs.get? i, xs.get? j with
  | some x, some y => (xs.setD i y).setD j x
  | _, _ => xs

/-- `data.Less(i, j)` on the current array contents. -/
def aless (less : α → α → Bool) (xs : Array α) (i j : Nat) : Bool :=
  match xs.get? i, xs.get? j with
  | some x, some y => less x y
  | _, _ => false

/-- Inner loop of `insertionSort_func`: bubble position `j` left while it
is less than its left neighbour and `j > a`. -/
def insSortInner (less : α → α → Bool) (a : Nat) : Array α → Nat → Array α
  | xs, 0 => xs
  | xs, j + 1 =>
      if j + 1 > a && aless less xs (j + 1) j then
        insSortInner less a (aswap xs (j + 1) j) j
      else xs

/-- Outer loop of `insertionSort_func` (`k` = remaining iterations). -/
def insSortLoop (less : α → α → Bool) (a : Nat) : Array α → Nat → Nat → Array α
  | xs, _, 0 => xs
  | xs, i, k + 1 => insSortLoop less a (insSortInner less a xs i) (i + 1) k

/-- Go `insertionSort_func(data, a, b)`. -/
def insertionSortGo (less : α → α → Bool) (xs : Array α) (a b : Nat) : Array α :=
  insSortLoop less a xs (a + 1) (b - (a + 1))

/-- Loop of `siftDown_func`. -/
def siftDownLoop (less : α → α → Bool) (first hi : Nat) : Array α → Nat → Nat → Array α
  | xs, _, 0 => xs
  | xs, root, k + 1 =>
      let child := 2 * root + 1
      if child ≥ hi then xs
      else
        let child :=
          if child + 1 < hi && aless less xs (first + child) (first + child + 1) then
            child + 1
          else child
        if !(aless less xs (first + root) (first + child)) then xs
        else siftDownLoop less first hi (aswap xs (first + root) (first + child)) child k

/-- Go `siftDown_func(data, lo, hi, first)`. -/
def siftDownGo (less : α → α → Bool) (xs : Array α) (lo hi first : Nat) : Array α :=
  siftDownLoop less first hi xs lo (hi + 2)

/-- Heap construction of `heapSort_func`: `siftDown` for `i` down to 0. -/
def heapBuildLoop (less : α → α → Bool) (hi first : Nat) : Array α → Nat → Array α
  | xs, 0 => siftDownGo less xs 0 hi first
  | xs, i + 1 => heapBuildLoop less hi first (siftDownGo less xs (i + 1) hi first) i

/-- Pop phase of `heapSort_func`: `i` from `hi-1` down to 0. -/
def heapExtractLoop (less : α → α → Bool) (first : Nat) : Array α → Nat → Array α
  | xs, 0 => siftDownGo less (aswap xs first first) 0 0 first
  | xs, i + 1 =>
      heapExtractLoop less first
        (siftDownGo less (aswap xs first (first + (i + 1))) 0 (i + 1) first) i

/-- Go `heapSort_func(data, a, b)`. -/
def heapSortGo (less : α → α → Bool) (xs : Array α) (a b : Nat) : Array α :=
  let first := a
  let hi := b - a
  if hi = 0 then xs
  else heapExtractLoop less first (heapBuildLoop less hi first xs ((hi - 1) / 2)) (hi - 1)

/-- `sort`'s xorshift pseudo-random step (`*r ^= *r<<13; *r ^= *r>>7;
*r ^= *r<<17` over uint64). -/
def xorshiftNext (x : Nat) : Nat :=
  let x := (x ^^^ (x <<< 13)) % 2 ^ 64
  let x := (x ^^^ (x >>> 7)) % 2 ^ 64
  (x ^^^ (x <<< 17)) % 2 ^ 64

/-- `math/bits.Len` over uint. -/
def bitsLen (n : Nat) : Nat := if n = 0 then 0 else Nat.log2 n + 1

/-- Go `breakPatterns_func`: three pseudo-random swaps around the middle
when the range has at least 8 elements. -/
def breakPatternsGo (xs : Array α) (a b : Nat) : Array α :=
  let length := b - a
  if length ≥ 8 then
    let modulus := 2 ^ bitsLen length
    let idx := a + (length / 4) * 2 - 1
    let step := fun (xs : Array α) (rand i : Nat) =>
      let other := rand &&& (modulus - 1)
      let other := if other ≥ length then other - length else other
      aswap xs (idx - 1 + i) (a + other)
    let r1 := xorshiftNext (length % 2 ^ 64)
    let xs := step xs r1 0
    let r2 := xorshiftNext r1
    let xs := step xs r2 1
    let r3 := xorshiftNext r2
    step xs r3 2
  else xs

/-- The `sortedHint` returned by `choosePivot_func`. -/
inductive SortedHint where
  | increasing
  | decreasing
  | unknown
deriving DecidableEq, Repr

/-- Go `order2_func`: order two indices by their elements, counting a swap. -/
def order2Go (less : α → α → Bool) (xs : Array α) (a b swaps : Nat) : Nat × Nat × Nat :=
  if aless less xs b a then (b, a, swaps + 1) else (a, b, swaps)

/-- Go `median_func` of three indices (plus running swap count). -/
def medianGo (less : α → α → Bool) (xs : Array α) (a0 b0 c0 swaps0 : Nat) : Nat × Nat :=
  let p1 := order2Go less xs a0 b0 swaps0
  let p2 := order2Go less xs p1.2.1 c0 p1.2.2
  let p3 := order2Go less xs p1.1 p2.1 p2.2.2
  (p3.2.1, p3.2.2)

/-- Go `medianAdjacent_func`: median of `{a-1, a, a+1}`. -/
def medianAdjacentGo (less : α → α → Bool) (xs : Array α) (a swaps : Nat) : Nat × Nat :=
  medianGo less xs (a - 1) a (a + 1) swaps

/-- Go `choosePivot_func`: median of three (ninther for 50+), with a
sortedness hint from the swap count. -/
def choosePivotGo (less : α → α → Bool) (xs : Array α) (a b : Nat) : Nat × SortedHint :=
  let l := b - a
  let i := a + l / 4 * 1
  let j := a + l / 4 * 2
  let k := a + l / 4 * 3
  if l ≥ 8 then
    let q :=
      if l ≥ 50 then
        let p1 := medianAdjacentGo less xs i 0
        let p2 := medianAdjacentGo less xs j p1.2
        let p3 := medianAdjacentGo less xs k p2.2
        (p1.1, p2.1, p3.1, p3.2)
      else (i, j, k, 0)
    let pm := medianGo less xs q.1 q.2.1 q.2.2.1 q.2.2.2
    if pm.2 = 0 then (pm.1, SortedHint.increasing)
    else if pm.2 = 12 then (pm.1, SortedHint.decreasing)
    else (pm.1, SortedHint.unknown)
  else (j, SortedHint.increasing)

/-- Go `reverseRange_func` loop. -/
def reverseRangeLoop : Array α → Nat → Nat → Nat → Array α
  | xs, _, _, 0 => xs
  | xs, i, j, k + 1 => if i < j then reverseRangeLoop (aswap xs i j) (i + 1) (j - 1) k else xs

/-- Go `reverseRange_func(data, a, b)`. -/
def reverseRangeGo (xs : Array α) (a b : Nat) : Array α := reverseRangeLoop xs a (b - 1) b

/-- `partialInsertionSort_func`: advance `i` over an already-ordered run. -/
def pisAdvance (less : α → α → Bool) (xs : Array α) (b : Nat) : Nat → Nat → Nat
  | i, 0 => i
  | i, k + 1 =>
      if i < b && !(aless less xs i (i - 1)) then pisAdvance less xs b (i + 1) k else i

/-- `partialInsertionSort_func`: shift the smaller element left. -/
def pisLeftLoop (less : α → α → Bool) (a : Nat) : Array α → Nat → Nat → Array α
  | xs, _, 0 => xs
  | xs, j, k + 1 =>
      if j ≥ a + 1 && aless less xs j (j - 1) then
        pisLeftLoop less a (aswap xs j (j - 1)) (j - 1) k
      else xs

/-- `partialInsertionSort_func`: shift the greater element right. -/
def pisRightLoop (less : α → α → Bool) (b : Nat) : Array α → Nat → Nat → Array α
  | xs, _, 0 => xs
  | xs, j, k + 1 =>
      if j < b && aless less xs j (j - 1) then
        pisRightLoop less b (aswap xs j (j - 1)) (j + 1) k
      else xs

/-- Go `partialInsertionSort_func`: at most 5 attempts; gives up (without
moving anything) on ranges shorter than 50. -/
def pisSteps (less : α → α → Bool) (a b : Nat) : Array α → Nat → Nat → Bool × Array α
  | xs, _, 0 => (false, xs)
  | xs, i, steps + 1 =>
      let i := pisAdvance less xs b i (b + 2)
      if i = b then (true, xs)
      else if b - a < 50 then (false, xs)
      else
        let xs := aswap xs i (i - 1)
        let xs := if i - a ≥ 2 then pisLeftLoop less a xs (i - 1) (b + 2) else xs
        let xs := if b - i ≥ 2 then pisRightLoop less b xs (i + 1) (b + 2) else xs
        pisSteps less a b xs i steps

/-- Go `partialInsertionSort_func(data, a, b)`. -/
def partialInsertionSortGo (less : α → α → Bool) (xs : Array α) (a b : Nat) :
    Bool × Array α :=
  pisSteps less a b xs (a + 1) 5

/-- `partition_func`: advance `i` while the element is less than the pivot
(at `a`). -/
def partAdvanceI (less : α → α → Bool) (xs : Array α) (a j : Nat) : Nat → Nat → Nat
  | i, 0 => i
  | i, k + 1 => if i ≤ j && aless less xs i a then partAdvanceI less xs a j (i + 1) k else i

/-- `partition_func`: retreat `j` while the element is not less than the
pivot. -/
def partRetreatJ (less : α → α → Bool) (xs : Array α) (a i : Nat) : Nat → Nat → Nat
  | j, 0 => j
  | j, k + 1 =>
      if i ≤ j && !(aless less xs j a) then partRetreatJ less xs a i (j - 1) k else j

/-- Main swapping loop of `partition_func`. -/
def partitionLoop (less : α → α → Bool) (a b : Nat) : Array α → Nat → Nat → Nat → Array α × Nat
  | xs, _, j, 0 => (aswap xs j a, j)
  | xs, i, j, fuel + 1 =>
      let i := partAdvanceI less xs a j i (b + 2)
      let j := partRetreatJ less xs a i j (b + 2)
      if i > j then (aswap xs j a, j)
      else partitionLoop less a b (aswap xs i j) (i + 1) (j - 1) fuel

/-- Go `partition_func(data, a, b, pivot)`: Hoare partition around the
pivot moved to `a`; the Bool reports "already partitioned" (no swap was
needed on the first pass). -/
def partitionGo (less : α → α → Bool) (xs : Array α) (a b pivot : Nat) :
    Array α × Nat × Bool :=
  let xs := aswap xs a pivot
  let i := partAdvanceI less xs a (b - 1) (a + 1) (b + 2)
  let j := partRetreatJ less xs a i (b - 1) (b + 2)
  if i > j then (aswap xs j a, j, true)
  else
    let p := partitionLoop less a b (aswap xs i j) (i + 1) (j - 1) (b + 2)
    (p.1, p.2, false)

/-- `partitionEqual_func`: advance `i` while the element equals the pivot
(`!Less(a, i)`). -/
def peqAdvanceI (less : α → α → Bool) (xs : Array α) (a j : Nat) : Nat → Nat → Nat
  | i, 0 => i
  | i, k + 1 =>
      if i ≤ j && !(aless less xs a i) then peqAdvanceI less xs a j (i + 1) k else i

/-- `partitionEqual_func`: retreat `j` while the element is greater than
the pivot. -/
def peqRetreatJ (less : α → α → Bool) (xs : Array α) (a i : Nat) : Nat → Nat → Nat
  | j, 0 => j
  | j, k + 1 => if i ≤ j && aless less xs a j then peqRetreatJ less xs a i (j - 1) k else j

/-- Swapping loop of `partitionEqual_func`. -/
def peqLoop (less : α → α → Bool) (a b : Nat) : Array α → Nat → Nat → Nat → Array α × Nat
  | xs, i, _, 0 => (xs, i)
  | xs, i, j, fuel + 1 =>
      let i := peqAdvanceI less xs a j i (b + 2)
      let j := peqRetreatJ less xs a i j (b + 2)
      if i > j then (xs, i)
      else peqLoop less a b (aswap xs i j) (i + 1) (j - 1) fuel

/-- Go `partitionEqual_func(data, a, b, pivot)`. -/
def partitionEqualGo (less : α → α → Bool) (xs : Array α) (a b pivot : Nat) :
    Array α × Nat :=
  peqLoop less a b (aswap xs a pivot) (a + 1) (b - 1) (b + 2)

/-- Go `pdqsort_func`: the main recursion (the Go `for` loop's tail
continuation is written as a recursive call with the same arguments). -/
def pdqsortGo (less : α → α → Bool) :
    Nat → Array α → Nat → Nat → Nat → Bool → Bool → Array α
  | 0, xs, _, _, _, _, _ => xs
  | fuel + 1, xs, a, b, limit, wasBalanced, wasPartitioned =>
      let length := b - a
      if length ≤ 12 then insertionSortGo less xs a b
      else if limit = 0 then heapSortGo less xs a b
      else
        let p0 := if !wasBalanced then (breakPatternsGo xs a b, limit - 1) else (xs, limit)
        let xs := p0.1
        let limit := p0.2
        let cp := choosePivotGo less xs a b
        let p1 :=
          if cp.2 = SortedHint.decreasing then
            (reverseRangeGo xs a b, (b - 1) - (cp.1 - a), SortedHint.increasing)
          else (xs, cp.1, cp.2)
        let xs := p1.1
        let pivot := p1.2.1
        let hint := p1.2.2
        let pr :=
          if wasBalanced && wasPartitioned && hint = SortedHint.increasing then
            partialInsertionSortGo less xs a b
          else (false, xs)
        if pr.1 then pr.2
        else
          let xs := pr.2
          if a > 0 && !(aless less xs (a - 1) pivot) then
            let pe := partitionEqualGo less xs a b pivot
            pdqsortGo less fuel pe.1 pe.2 b limit wasBalanced wasPartitioned
          else
            let pt := partitionGo less xs a b pivot
            let xs := pt.1
            let mid := pt.2.1
            let wasPartitioned := pt.2.2
            let leftLen := mid - a
            let rightLen := b - mid
            let wasBalanced := Nat.ble (length / 8) (min leftLen rightLen)
            if leftLen < rightLen then
              let xs := pdqsortGo less fuel xs a mid limit wasBalanced wasPartitioned
              pdqsortGo less fuel xs (mid + 1) b limit wasBalanced wasPartitioned
            else
              let xs := pdqsortGo less fuel xs (mid + 1) b limit wasBalanced wasPartitioned
              pdqsortGo less fuel xs a mid limit wasBalanced wasPartitioned

/-- Go `sort.Slice(x, less)`: `limit = bits.Len(uint(length))`, then
`pdqsort(0, length)`.  The fuel strictly bounds the recursion depth. -/
def sortSliceGo (less : α → α → Bool) (xs : List α) : List α :=
  let n := xs.length
  (pdqsortGo less (2 * n + bitsLen n + 8) xs.toArray 0 n (bitsLen n) true true).toList

/-- Go `strings.ToLower` (ASCII fold; the program's team and audience
strings are ASCII). -/
def toLowerGo (s : Str) : Str :=
  s.map (fun c => if 'A' ≤ c ∧ c ≤ 'Z' then Char.ofNat (c.toNat + 32) else c)

/-- Go `strings.Contains`. -/
def containsSub (s sub : Str) : Bool := (indexOfSub s sub).isSome

/-- Game filter shared by `generateHTML` and `generateICalendar`: all
games for the combined scope, the team's games (matched by slug) for a
team scope. -/
def gamesForScope (allGames : List Game) (filterTeam : Option Team) : List Game :=
  match filterTeam with
  | none => allGames
  | some ft => allGames.filter (fun g => g.team.slug == ft.slug)

/-- Note filter shared by both renderers: every note for the combined
scope; for a team scope the notes whose audience is "all teams"
(case-insensitive) or contains the team's name. -/
def notesForScope (allNotes : List Note) (filterTeam : Option Team) : List Note :=
  match filterTeam with
  | none => allNotes
  | some ft =>
      allNotes.filter (fun n =>
        let teamsLower := toLowerGo n.teams
        teamsLower == str "all teams" || containsSub teamsLower (toLowerGo ft.name))

/-- `generateHTML`'s combined item list before sorting: all games (in
insertion order), then all notes (in insertion order). -/
def buildScheduleItems (gamesToDisplay : List Game) (notesToDisplay : List Note) :
    List ScheduleItem :=
  gamesToDisplay.map ScheduleItem.game ++ notesToDisplay.map ScheduleItem.note

/-- `generateHTML`'s sorted sequence for a scope: `sort.Slice` with the
comparator. -/
def sortedScheduleItems (gamesToDisplay : List Game) (notesToDisplay : List Note) :
    List ScheduleItem :=
  sortSliceGo scheduleItemLess (buildScheduleItems gamesToDisplay notesToDisplay)

/-- The backwards scan of `generateHTML`'s week-start computation: walk
the items before position `i` in reverse, skip notes, and compare ISO
weeks with the first game found; no game found leaves the flag false. -/
def scanPrevGames (cur : Date) : List ScheduleItem → Bool
  | [] => false
  | .note _ :: rest => scanPrevGames cur rest
  | .game g :: _ => cur.isoWeek != (parseDateForSorting g.date).isoWeek

/-- `generateHTML`'s `isWeekStart` flag for the item at position `i` of
the (sorted) sequence: false for notes; for a game with a non-sentinel
year, true at position 0, else decided against the nearest preceding
game. -/
def isWeekStartAt (items : List ScheduleItem) (i : Nat) : Bool :=
  match items.get? i with
  | some (.game g) =>
      let currentDate := parseDateForSorting g.date
      if currentDate.year != 2099 then
        if i = 0 then true
        else scanPrevGames currentDate ((items.take i).reverse)
      else false
  | _ => false

/-- Go `strings.ReplaceAll(s, " ", "")`. -/
def removeSpaces (s : Str) : Str := s.filter (fun c => c ≠ ' ')

/-- Two-digit zero-padded component of `Format("20060102")` (months and
days from the parsers are at most two digits). -/
def pad2 (n : Nat) : Str :=
  [Char.ofNat ('0'.toNat + n / 10 % 10), Char.ofNat ('0'.toNat + n % 10)]

/-- Four-digit zero-padded year of `Format("20060102")` (parsed years are
at most four digits). -/
def pad4 (n : Nat) : Str :=
  [Char.ofNat ('0'.toNat + n / 1000 % 10), Char.ofNat ('0'.toNat + n / 100 % 10),
   Char.ofNat ('0'.toNat + n / 10 % 10), Char.ofNat ('0'.toNat + n % 10)]

/-- Go `dateObj.Format("20060102")`. -/
def fmtYYYYMMDD (d : Date) : Str := pad4 d.year ++ pad2 d.month ++ pad2 d.day

/-- UTF-8 bytes of a character (for `fmt.Sprintf("%x", string)`). -/
def utf8Bytes (c : Char) : List Nat :=
  let n := c.toNat
  if n < 0x80 then [n]
  else if n < 0x800 then [0xC0 + n / 64, 0x80 + n % 64]
  else if n < 0x10000 then [0xE0 + n / 4096, 0x80 + n / 64 % 64, 0x80 + n % 64]
  else [0xF0 + n / 262144, 0x80 + n / 4096 % 64, 0x80 + n / 64 % 64, 0x80 + n % 64]

/-- A lowercase hexadecimal digit. -/
def hexDigit (n : Nat) : Char :=
  if n < 10 then Char.ofNat ('0'.toNat + n) else Char.ofNat ('a'.toNat + n - 10)

/-- Go `fmt.Sprintf("%x", s)`: lowercase hex dump of the string's bytes. -/
def hexStr (s : Str) : Str :=
  (s.map (fun c => ((utf8Bytes c).map (fun b => [hexDigit (b / 16), hexDigit (b % 16)])).flatten)).flatten

/-- `generateICalendar`'s game event UID:
`game-<TeamNameNoSpaces>-<yyyymmdd>-<TimeNoSpaces>@lightningschedule.local`. -/
def gameUID (g : Game) : Str :=
  str "game-" ++ removeSpaces g.team.name ++ str "-" ++
    fmtYYYYMMDD (parseDateForSorting g.date) ++ str "-" ++
    removeSpaces g.time ++ str "@lightningschedule.local"

/-- `generateICalendar`'s note event UID:
`note-<yyyymmdd>-<hex of text without spaces>@lightningschedule.local`. -/
def noteUID (n : Note) : Str :=
  str "note-" ++ fmtYYYYMMDD (parseDateForSorting n.date) ++ str "-" ++
    hexStr (removeSpaces n.text) ++ str "@lightningschedule.local"

/-- Go `escapeICalText`: backslash, comma, semicolon and newline escaped,
carriage returns removed (the sequential `ReplaceAll`s touch disjoint
characters, so one pass over the characters is equivalent). -/
def escapeICalText (s : Str) : Str :=
  s.foldr
    (fun c acc =>
      (match c with
       | '\\' => ['\\', '\\']
       | ',' => ['\\', ',']
       | ';' => ['\\', ';']
       | '\n' => ['\\', 'n']
       | '\r' => []
       | c => [c]) ++ acc)
    []

mutual

/-- Tag-removal pass of Go `stripHTMLTags` (the regexp `<[^>]*>`): a `<`
opens a tag that runs to the next `>`. -/
def stripTagsScan : Str → Str
  | [] => []
  | '<' :: rest => skipTag rest rest
  | c :: rest => c :: stripTagsScan rest
termination_by s => s.length
decreasing_by all_goals simp_wf

/-- Inside a `<...` tag: drop up to the closing `>`; with no `>` left
the regexp cannot match anywhere, so the `<` and the rest pass through. -/
def skipTag : Str → Str → Str
  | [], orig => '<' :: orig
  | '>' :: rest, _ => stripTagsScan rest
  | _ :: rest, orig => skipTag rest orig
termination_by s _ => s.length
decreasing_by all_goals simp_wf

end

/-- Go `strings.ReplaceAll(s, pat, rep)` for a non-empty pattern:
leftmost, non-overlapping, continuing after each replacement. -/
def replaceAllSub (pat rep : Str) : Str → Str
  | [] => []
  | c :: rest =>
      if pat ≠ [] ∧ pat.isPrefixOf (c :: rest) then
        rep ++ replaceAllSub pat rep (rest.drop (pat.length - 1))
      else c :: replaceAllSub pat rep rest
termination_by s => s.length
decreasing_by
  · simp [List.length_drop]
    omega
  · simp

/-- Go `stripHTMLTags`: drop `<...>` tags, then decode the six HTML
entities, in the source's order. -/
def stripHTMLTags (html : Str) : Str :=
  let t := stripTagsScan html
  let t := replaceAllSub (str "&nbsp;") (str " ") t
  let t := replaceAllSub (str "&amp;") (str "&") t
  let t := replaceAllSub (str "&lt;") (str "<") t
  let t := replaceAllSub (str "&gt;") (str ">") t
  let t := replaceAllSub (str "&quot;") (str "\"") t
  replaceAllSub (str "&#39;") (str "'") t

/-- One VEVENT of the calendar feed, with the fields the claims are
about (identity, all-day versus timed, escaped summary). -/
structure ICalEvent where
  uid : Str
  allDay : Bool
  summary : Str
deriving DecidableEq, Repr

/-- Game loop of `generateICalendar`: skip games whose parsed date has
year 2099, emit one VEVENT for every other game (all-day when the time
is TBD/empty or fails the time regexp). -/
def icalGameEvents : List Game → List ICalEvent
  | [] => []
  | g :: gs =>
      let dateObj := parseDateForSorting g.date
      if dateObj.year == 2099 then icalGameEvents gs
      else
        let isTBD := g.time == str "TBD" || g.time == []
        let allDay := isTBD || (findTimeMatch g.time).isNone
        let summary :=
          if g.homeAway == str "Away" then g.team.name ++ str " @ " ++ g.opponent
          else g.team.name ++ str " vs " ++ g.opponent
        { uid := gameUID g, allDay := allDay, summary := escapeICalText summary } ::
          icalGameEvents gs

/-- Note loop of `generateICalendar`: skip notes whose parsed date has
year 2099, emit one all-day VEVENT for every other note. -/
def icalNoteEvents : List Note → List ICalEvent
  | [] => []
  | n :: ns =>
      let dateObj := parseDateForSorting n.date
      if dateObj.year == 2099 then icalNoteEvents ns
      else
        { uid := noteUID n, allDay := true,
          summary := escapeICalText (stripHTMLTags n.text) } :: icalNoteEvents ns

/-- All VEVENTs of one feed (games then notes), for a scope's export
lists. -/
def icalEvents (gamesToExport : List Game) (notesToExport : List Note) : List ICalEvent :=
  icalGameEvents gamesToExport ++ icalNoteEvents notesToExport

/-- The fetch outcomes `main` consumes: `none` models a failed fetch.
`scrapeResults` are consumed positionally by the teams that have a
non-empty `CBLLink1`. -/
structure MainInputs where
  teams : Option (List Team)
  locations : Option (List Location)
  scrapeResults : List (Option (List Game))
  sheetGames : Option (List Game)
  notes : Option (List Note)

/-- An output file `main` writes (combined scope: `none`; team scope:
the team's slug). -/
inductive OutFile where
  | htmlIndex (slug : Option Str)
  | icsFile (slug : Option Str)
deriving DecidableEq, Repr

/-- `main`'s scrape loop: teams without a `CBLLink1` are skipped, a
failed scrape contributes nothing (logged and `continue`). -/
def gatherScraped : List Team → List (Option (List Game)) → List Game
  | [], _ => []
  | t :: ts, rs =>
      if t.cblLink1 ≠ [] then
        match rs with
        | [] => gatherScraped ts []
        | r :: rs2 => (match r with | some gs => gs | none => []) ++ gatherScraped ts rs2
      else gatherScraped ts rs

/-- The games `main` accumulates before the emptiness check: scraped
games, then the sheet games (a failed sheet fetch contributes nothing). -/
def mainAllGames (allTeams : List Team) (inp : MainInputs) : List Game :=
  gatherScraped allTeams inp.scrapeResults ++ inp.sheetGames.getD []

/-- Go `main` as (fatal-exit?, files written).  Order of operations as in
the source: teams fetch (fatal on failure), locations fetch (failure ->
empty table), scrape loop, sheet games, the zero-games fatal check
(before any directory or file is created), notes fetch (failure -> no
notes), then the combined pair of outputs and one pair per team. -/
def mainModel (inp : MainInputs) : Bool × List OutFile :=
  match inp.teams with
  | none => (true, [])
  | some allTeams =>
      let _allLocations := inp.locations.getD []
      let allGames := mainAllGames allTeams inp
      if allGames.length = 0 then (true, [])
      else
        let _allNotes := inp.notes.getD []
        (false,
          [OutFile.htmlIndex none, OutFile.icsFile none] ++
            allTeams.foldr
              (fun t acc => OutFile.htmlIndex (some t.slug) :: OutFile.icsFile (some t.slug) :: acc)
              [])

/-! Theorems. -/

/-- `getCellValueAux` against the first-matching-header index
(`List.findIdx?` here carries the same running index as the Go loop). -/
theorem getCellValueAux_eq (record : List Str) (headerName : Str) :
    ∀ (headers : List Str) (k : Nat),
      getCellValueAux headers k record headerName =
        match List.findIdx? (fun h => trimSpace h == headerName) headers k with
        | some i => ((record.get? i).map trimSpace).getD []
        | none => [] := by
  intro headers
  induction headers with
  | nil => intro k; rfl
  | cons h rest ih =>
      intro k
      rw [List.findIdx?_cons]
      by_cases hh : trimSpace h = headerName
      · simp only [getCellValueAux, hh, if_pos, beq_self_eq_true, if_true]
        cases record.get? k <;> rfl
      · have hb : (trimSpace h == headerName) = false := beq_eq_false_iff_ne.mpr hh
        simp only [getCellValueAux, hh, if_false, hb, ih]
        simp

/-- C9: `getCellValue` is total and never reads out of range: it returns
the trimmed cell at the index of the first header whose trimmed name
equals the requested name, and the empty string when no header matches or
when the record has fewer cells than that index. -/
theorem getCellValue_spec (headers record : List Str) (headerName : Str) :
    getCellValue headers record headerName =
      match List.findIdx? (fun h => trimSpace h == headerName) headers with
      | some i => ((record.get? i).map trimSpace).getD []
      | none => [] :=
  getCellValueAux_eq record headerName headers 0

/-- C10: location lookup treats "" and "TBD" (after trimming) as
no-location inputs, and for every other input containing `" - "` both
lookup functions return the trimmed sub-venue suffix after the first
separator, whether or not the base matches a table entry. -/
theorem findLocation_subvenue (locs : List Location) (s : Str) :
    ((trimSpace s = [] ∨ trimSpace s = str "TBD") →
        findLocationByName locs s = (none, []) ∧
        findLocationByAbbrev locs s = (none, [])) ∧
    (∀ idx, ¬(trimSpace s = [] ∨ trimSpace s = str "TBD") →
        indexOfSub (trimSpace s) (str " - ") = some idx →
        (findLocationByName locs s).2 = trimSpace ((trimSpace s).drop (idx + 3)) ∧
        (findLocationByAbbrev locs s).2 = trimSpace ((trimSpace s).drop (idx + 3))) := by
  constructor
  · intro h
    constructor
    · simp only [findLocationByName, if_pos h]
    · simp only [findLocationByAbbrev, if_pos h]
  · intro idx h hidx
    constructor
    · simp only [findLocationByName, if_neg h, hidx]
      cases locs.find? (fun l => l.name == trimSpace ((trimSpace s).take idx)) <;> rfl
    · simp only [findLocationByAbbrev, if_neg h, hidx]
      cases locs.find? (fun l => l.abbr == trimSpace ((trimSpace s).take idx)) <;> rfl

/-- C10 witness: a concrete sub-venue split with an empty location table
(so the lookup fails yet the sub-venue survives), plus the TBD case. -/
theorem findLocation_subvenue_witness :
    findLocationByName [] (str " TBD ") = (none, []) ∧
    (findLocationByName [] (str "Main Gym - Court 2")).2 = str "Court 2" ∧
    (findLocationByAbbrev [] (str "MG - Court 2")).2 = str "Court 2" := by
  refine ⟨((findLocation_subvenue [] (str " TBD ")).1 (by decide)).1, ?_, ?_⟩
  · exact ((findLocation_subvenue [] (str "Main Gym - Court 2")).2 8 (by decide) (by decide)).1
  · exact ((findLocation_subvenue [] (str "MG - Court 2")).2 2 (by decide) (by decide)).2

/-- C2: the code mis-scores ties and (in the scraper) ignores `Atoi`
errors: a `5-5` sheet score yields the tag `L`, and a scraped row with a
non-numeric own score is tagged as a loss of 0; the sheet adapter alone
rejects non-numeric sides.  Each conjunct evaluates the embedded source
at the failing (or, for the last three, agreeing) inputs. -/
theorem scoreResult_tie_bug :
    sheetGameResult (str "5-5") = str "L" ∧
    (scrapeScoreResult (str "AB") (str "1")).2 = str "L" ∧
    sheetGameResult (str "5-3") = str "W" ∧
    sheetGameResult (str "3-5") = str "L" ∧
    sheetGameResult (str "x-5") = [] := by decide

/-- Fixture team with a scrape URL. -/
def exTeam : Team :=
  ⟨str "12U Blue", str "12u-blue", str "blue", 1, str "http://x", [], str "12U BLUE"⟩

/-- Fixture team without a scrape URL. -/
def exTeam2 : Team := ⟨str "14U White", str "14u-white", str "white", 2, [], [], []⟩

/-- Fixture sheet game. -/
def exGameSheet : Game :=
  ⟨exTeam2, str "1/5/25", str "5:00 PM", none, [], str "Opp", str "Home", [], []⟩

/-- C7: with the teams fetch succeeded, a run whose combined game count
is zero exits fatally with no output file written; the outcome never
depends on the notes or locations fetches (they only default to empty),
and with at least one game the run is not fatal and writes its outputs. -/
theorem mainModel_spec (inp : MainInputs) (ts : List Team)
    (hteams : inp.teams = some ts) :
    ((mainAllGames ts inp).length = 0 → mainModel inp = (true, [])) ∧
    mainModel inp = mainModel { inp with locations := some [], notes := some [] } ∧
    ((mainAllGames ts inp).length ≠ 0 →
      (mainModel inp).1 = false ∧ (mainModel inp).2 ≠ []) := by
  refine ⟨fun hzero => ?_, ?_, fun hnz => ?_⟩
  · simp only [mainModel, hteams, hzero, if_pos]
  · simp only [mainModel, hteams, mainAllGames]
  · simp only [mainModel, hteams]
    rw [if_neg hnz]
    exact ⟨rfl, by simp⟩

/-- C7 witness: a zero-game run (teams fetched, no scrapes, empty sheet)
is fatal with no outputs; a run with one sheet game but failed locations
and notes fetches is not fatal. -/
theorem mainModel_spec_witness :
    mainModel ⟨some [exTeam2], some [], [], some [], none⟩ = (true, []) ∧
    (mainModel ⟨some [exTeam2], none, [], some [exGameSheet], none⟩).1 = false ∧
    (mainModel ⟨some [exTeam2], none, [], some [exGameSheet], none⟩).2 ≠ [] := by
  refine ⟨(mainModel_spec _ [exTeam2] rfl).1 (by decide), ?_, ?_⟩
  · exact ((mainModel_spec ⟨some [exTeam2], none, [], some [exGameSheet], none⟩
      [exTeam2] rfl).2.2 (by decide)).1
  · exact ((mainModel_spec ⟨some [exTeam2], none, [], some [exGameSheet], none⟩
      [exTeam2] rfl).2.2 (by decide)).2

/-- Game events carry exactly the UIDs of the games whose parsed year is
not 2099, in order. -/
theorem icalGameEvents_uid (games : List Game) :
    (icalGameEvents games).map ICalEvent.uid =
      (games.filter (fun g => (parseDateForSorting g.date).year != 2099)).map gameUID := by
  induction games with
  | nil => rfl
  | cons g gs ih =>
      by_cases h : (parseDateForSorting g.date).year = 2099
      · simp [icalGameEvents, h, ih]
      · simp [icalGameEvents, h, ih]

/-- Note events carry exactly the UIDs of the notes whose parsed year is
not 2099, in order. -/
theorem icalNoteEvents_uid (notes : List Note) :
    (icalNoteEvents notes).map ICalEvent.uid =
      (notes.filter (fun n => (parseDateForSorting n.date).year != 2099)).map noteUID := by
  induction notes with
  | nil => rfl
  | cons n ns ih =>
      by_cases h : (parseDateForSorting n.date).year = 2099
      · simp [icalNoteEvents, h, ih]
      · simp [icalNoteEvents, h, ih]

/-- C5 (amended): the feed holds one VEVENT per Game and per Note whose
parsed date's year is not 2099 (in input order), and none for the
others — the year-2099 test used by the code conflates the sentinel with
genuine year-2099 dates. -/
theorem icalEvents_one_per_item (gamesToExport : List Game) (notesToExport : List Note) :
    (icalEvents gamesToExport notesToExport).map ICalEvent.uid =
      (gamesToExport.filter (fun g => (parseDateForSorting g.date).year != 2099)).map gameUID ++
      (notesToExport.filter (fun n => (parseDateForSorting n.date).year != 2099)).map noteUID := by
  simp [icalEvents, icalGameEvents_uid, icalNoteEvents_uid]

/-- Fixture: a game on the parseable real date 6/1/2099. -/
def c5Game : Game := ⟨exTeam2, str "6/1/2099", str "TBD", none, [], str "Opp", [], [], []⟩

/-- C5 counterexample: `"6/1/2099"` parses to a real date — not the
sentinel — yet `generateICalendar` emits no VEVENT for the game, against
the claim that every item with a real parsed date yields exactly one
VEVENT. -/
theorem icalSkips2099_counterexample :
    parseDateForSorting (str "6/1/2099") = ⟨2099, 6, 1⟩ ∧
    (⟨2099, 6, 1⟩ : Date) ≠ sentinelDate ∧
    icalGameEvents [c5Game] = [] := by decide

/-- Fixtures: two distinct games that differ only in the opponent. -/
def c6GameA : Game := ⟨exTeam2, str "1/5/25", str "TBD", none, [], str "Opp A", [], [], []⟩

/-- Second game of the UID-collision pair. -/
def c6GameB : Game := ⟨exTeam2, str "1/5/25", str "TBD", none, [], str "Opp B", [], [], []⟩

/-- Game with a different date for the distinctness witness. -/
def c6GameC : Game := ⟨exTeam2, str "1/6/25", str "TBD", none, [], str "Opp A", [], [], []⟩

/-- Notes that differ only in the audience column. -/
def c6NoteA : Note := ⟨str "1/5/25", str "Gym closed", str "All Teams"⟩

/-- Second note of the determinism pair. -/
def c6NoteB : Note := ⟨str "1/5/25", str "Gym closed", str "12U Blue"⟩

/-- C6 counterexample: two distinct logical games (different opponents)
in the same feed receive the same UID — the UID omits the opponent. -/
theorem gameUID_collision :
    c6GameA ≠ c6GameB ∧ gameUID c6GameA = gameUID c6GameB ∧
    ¬((icalEvents [c6GameA, c6GameB] []).map ICalEvent.uid).Nodup := by decide

/-- C6 (amended): every VEVENT identifier is a deterministic function of
(team name, date, time) for games and of (date, text) for notes — no
random component, so re-runs reproduce it — and game UIDs are distinct
whenever the derived date component differs (distinctness is only
guaranteed when the derived components differ, as the collision
counterexample shows). -/
theorem uid_deterministic :
    (∀ g g' : Game, g.team.name = g'.team.name → g.date = g'.date → g.time = g'.time →
        gameUID g = gameUID g') ∧
    (∀ n n' : Note, n.date = n'.date → n.text = n'.text → noteUID n = noteUID n') ∧
    (∀ g g' : Game, g.team.name = g'.team.name → g.time = g'.time →
        fmtYYYYMMDD (parseDateForSorting g.date) ≠ fmtYYYYMMDD (parseDateForSorting g'.date) →
        gameUID g ≠ gameUID g') := by
  refine ⟨fun g g' hname hdate htime => ?_, fun n n' hdate htext => ?_,
    fun g g' hname htime hD huid => ?_⟩
  · simp only [gameUID, hname, hdate, htime]
  · simp only [noteUID, hdate, htext]
  · apply hD
    simp only [gameUID, hname, htime, List.append_assoc] at huid
    have h2 := List.append_cancel_left huid
    have h3 := List.append_cancel_left h2
    have h4 := List.append_cancel_left h3
    exact List.append_inj_left h4 (by simp [fmtYYYYMMDD, pad4, pad2])

/-- C6 witness: the determinism clauses applied at concrete games and
notes (UID stable under opponent/audience changes, distinct under a date
change). -/
theorem uid_deterministic_witness :
    gameUID c6GameA = gameUID c6GameB ∧
    noteUID c6NoteA = noteUID c6NoteB ∧
    gameUID c6GameA ≠ gameUID c6GameC :=
  ⟨uid_deterministic.1 c6GameA c6GameB rfl rfl rfl,
   uid_deterministic.2.1 c6NoteA c6NoteB rfl rfl,
   uid_deterministic.2.2 c6GameA c6GameC rfl rfl (by decide)⟩

/-- The game carried by an item, if any (for stating "nearest preceding
Game"). -/
def itemGame? : ScheduleItem → Option Game
  | .game g => some g
  | .note _ => none

/-- The backwards scan equals a lookup of the first game in the reversed
prefix (notes skipped, no game found leaves the flag false). -/
theorem scanPrevGames_eq (cur : Date) (l : List ScheduleItem) :
    scanPrevGames cur l =
      match (l.filterMap itemGame?).head? with
      | none => false
      | some g => cur.isoWeek != (parseDateForSorting g.date).isoWeek := by
  induction l with
  | nil => rfl
  | cons it rest ih =>
      cases it with
      | note n => simpa [scanPrevGames, itemGame?] using ih
      | game g => simp [scanPrevGames, itemGame?]

/-- C4 (amended): the week-start flag is false for notes and for
sentinel-dated games; a game at position 0 gets the flag; every other
non-sentinel game gets the flag exactly when a nearest preceding game
exists and its ISO (year, week) differs — in particular a first game
preceded only by notes does NOT get the flag. -/
theorem isWeekStart_spec (items : List ScheduleItem) (i : Nat) :
    (∀ n, items.get? i = some (.note n) → isWeekStartAt items i = false) ∧
    (∀ g, items.get? i = some (.game g) →
      ((parseDateForSorting g.date).year = 2099 → isWeekStartAt items i = false) ∧
      ((parseDateForSorting g.date).year ≠ 2099 → i = 0 → isWeekStartAt items i = true) ∧
      ((parseDateForSorting g.date).year ≠ 2099 → i ≠ 0 →
        isWeekStartAt items i =
          match (((items.take i).reverse).filterMap itemGame?).head? with
          | none => false
          | some pg =>
              (parseDateForSorting g.date).isoWeek !=
                (parseDateForSorting pg.date).isoWeek)) := by
  constructor
  · intro n h
    rw [List.get?_eq_getElem?] at h
    simp [isWeekStartAt, h]
  · intro g h
    rw [List.get?_eq_getElem?] at h
    refine ⟨fun h99 => ?_, fun h99 h0 => ?_, fun h99 hi => ?_⟩
    · simp [isWeekStartAt, h, h99]
    · subst h0; simp [isWeekStartAt, h, h99]
    · simp [isWeekStartAt, h, h99, hi, scanPrevGames_eq]

/-- Fixture note sharing the sheet game's date. -/
def c4Note : Note := ⟨str "1/5/25", str "no games today", str "All Teams"⟩

/-- C4 counterexample: in the comparator-sorted two-item sequence
[note, game] on the same real date, the game at position 1 is the first
Game of the sequence, yet its week-start flag is false (the claim says
the first Game's flag is true). -/
theorem isWeekStart_firstGame_counterexample :
    scheduleItemLess (ScheduleItem.note c4Note) (ScheduleItem.game exGameSheet) = true ∧
    scheduleItemLess (ScheduleItem.game exGameSheet) (ScheduleItem.note c4Note) = false ∧
    [ScheduleItem.note c4Note, ScheduleItem.game exGameSheet].get? 1 =
      some (ScheduleItem.game exGameSheet) ∧
    itemGame? (ScheduleItem.note c4Note) = none ∧
    (parseDateForSorting exGameSheet.date).year ≠ 2099 ∧
    isWeekStartAt [ScheduleItem.note c4Note, ScheduleItem.game exGameSheet] 1 = false := by
  decide

/-- C4 witness: the amended characterization applied to the same
concrete sequence (the preceding-game branch, a position-0 game, and a
note position). -/
theorem isWeekStart_spec_witness :
    isWeekStartAt [ScheduleItem.note c4Note, ScheduleItem.game exGameSheet] 0 = false ∧
    isWeekStartAt [ScheduleItem.game exGameSheet] 0 = true ∧
    isWeekStartAt [ScheduleItem.note c4Note, ScheduleItem.game exGameSheet] 1 =
      match (((([ScheduleItem.note c4Note, ScheduleItem.game exGameSheet]).take 1).reverse).filterMap
          itemGame?).head? with
      | none => false
      | some pg =>
          (parseDateForSorting exGameSheet.date).isoWeek !=
            (parseDateForSorting pg.date).isoWeek :=
  ⟨(isWeekStart_spec [ScheduleItem.note c4Note, ScheduleItem.game exGameSheet] 0).1
      c4Note rfl,
   ((isWeekStart_spec [ScheduleItem.game exGameSheet] 0).2 exGameSheet rfl).2.1
      (by decide) rfl,
   ((isWeekStart_spec [ScheduleItem.note c4Note, ScheduleItem.game exGameSheet] 1).2
      exGameSheet rfl).2.2 (by decide) (by decide)⟩

/-- `takeDigits` on a digit run followed by a non-digit splits exactly at
the boundary. -/
theorem takeDigits_append (d rest : Str) (hd : ∀ c ∈ d, c.isDigit)
    (hrest : ∀ c r, rest = c :: r → c.isDigit = false) :
    takeDigits (d ++ rest) = (d, rest) := by
  induction d with
  | nil =>
      cases rest with
      | nil => rfl
      | cons c r =>
          have hc := hrest c r rfl
          simp [takeDigits, hc]
  | cons c cs ih =>
      have hc : c.isDigit := hd c (List.mem_cons_self c cs)
      have ih2 := ih (fun x hx => hd x (List.mem_cons_of_mem c hx))
      have h1 : (cs ++ rest).takeWhile Char.isDigit = cs := congrArg Prod.fst ih2
      have h2 : (cs ++ rest).dropWhile Char.isDigit = rest := congrArg Prod.snd ih2
      simp [takeDigits, List.takeWhile_cons, List.dropWhile_cons, hc, h1, h2]

/-- The time regexp anchored at the start of
`digits ++ ":" ++ digits ++ tail` (with `tail` not starting in a digit)
consumes exactly the two digit groups and dispatches on
`tail` after its leading whitespace. -/
theorem timeMatchAt_build (h m tail : Str) (hh : h ≠ []) (hdh : ∀ c ∈ h, c.isDigit)
    (hm : m ≠ []) (hdm : ∀ c ∈ m, c.isDigit)
    (htail : ∀ c r, tail = c :: r → c.isDigit = false) :
    timeMatchAt (h ++ ':' :: (m ++ tail)) =
      match tail.dropWhile isSpaceRE with
      | 'A' :: 'M' :: _ => some (h, m, str "AM")
      | 'P' :: 'M' :: _ => some (h, m, str "PM")
      | _ => none := by
  have hcolon : ∀ c r, (':' :: (m ++ tail)) = c :: r → c.isDigit = false := by
    intro c r hc
    cases hc
    decide
  have t1 := takeDigits_append h (':' :: (m ++ tail)) hdh hcolon
  have t2 := takeDigits_append m tail hdm htail
  simp only [timeMatchAt, t1, t2, hh, hm]
  simp

/-- A match of the time regexp contains a colon. -/
theorem timeMatchAt_some_colon (s : Str) (r : Str × Str × Str)
    (hs : timeMatchAt s = some r) : ':' ∈ s := by
  simp only [timeMatchAt] at hs
  split at hs
  · exact absurd hs (by simp)
  · split at hs
    case h_1 r2 heq =>
      have : ':' ∈ s.dropWhile Char.isDigit := by
        rw [show s.dropWhile Char.isDigit = (takeDigits s).2 from rfl, heq]
        exact List.mem_cons_self _ _
      exact (List.dropWhile_sublist Char.isDigit).subset this
    case h_2 => exact absurd hs (by simp)

/-- The leftmost search finds a colon when it succeeds. -/
theorem findTimeMatch_some_colon :
    ∀ (s : Str) (r : Str × Str × Str), findTimeMatch s = some r → ':' ∈ s := by
  intro s
  induction s with
  | nil => intro r hr; simp [findTimeMatch] at hr
  | cons c rest ih =>
      intro r hr
      simp only [findTimeMatch] at hr
      cases hma : timeMatchAt (c :: rest) with
      | some r2 => exact timeMatchAt_some_colon _ _ hma
      | none =>
          rw [hma] at hr
          exact List.mem_cons_of_mem c (ih r hr)

/-- A colon-free string never matches the time regexp. -/
theorem findTimeMatch_no_colon (s : Str) (h : ':' ∉ s) : findTimeMatch s = none := by
  cases hm : findTimeMatch s with
  | none => rfl
  | some r => exact absurd (findTimeMatch_some_colon s r hm) h

/-- Structure of the capture groups of a successful anchored match:
non-empty digit runs and a literal `AM`/`PM`. -/
theorem timeMatchAt_groups (s : Str) (h m ap : Str)
    (hs : timeMatchAt s = some (h, m, ap)) :
    h ≠ [] ∧ (∀ c ∈ h, c.isDigit) ∧ m ≠ [] ∧ (∀ c ∈ m, c.isDigit) ∧
      (ap = str "AM" ∨ ap = str "PM") := by
  simp only [timeMatchAt] at hs
  split at hs
  · exact absurd hs (by simp)
  · case isFalse h1 =>
    split at hs
    case h_1 r2 heq =>
      split at hs
      · exact absurd hs (by simp)
      · case isFalse h2 =>
        split at hs
        · case h_1 =>
            obtain ⟨hh, hrest⟩ := Prod.mk.inj (Option.some.inj hs)
            obtain ⟨hm3, hap2⟩ := Prod.mk.inj hrest
            subst hh
            subst hm3
            subst hap2
            exact ⟨h1, fun c hc => List.mem_takeWhile_imp hc, h2,
              fun c hc => List.mem_takeWhile_imp hc, Or.inl rfl⟩
        · case h_2 =>
            obtain ⟨hh, hrest⟩ := Prod.mk.inj (Option.some.inj hs)
            obtain ⟨hm3, hap2⟩ := Prod.mk.inj hrest
            subst hh
            subst hm3
            subst hap2
            exact ⟨h1, fun c hc => List.mem_takeWhile_imp hc, h2,
              fun c hc => List.mem_takeWhile_imp hc, Or.inr rfl⟩
        · case h_3 => exact absurd hs (by simp)
    case h_2 => exact absurd hs (by simp)

/-- Group structure transfers to the leftmost search. -/
theorem findTimeMatch_groups :
    ∀ (s h m ap : Str), findTimeMatch s = some (h, m, ap) →
      h ≠ [] ∧ (∀ c ∈ h, c.isDigit) ∧ m ≠ [] ∧ (∀ c ∈ m, c.isDigit) ∧
        (ap = str "AM" ∨ ap = str "PM") := by
  intro s
  induction s with
  | nil => intro h m ap hr; simp [findTimeMatch] at hr
  | cons c rest ih =>
      intro h m ap hr
      simp only [findTimeMatch] at hr
      cases hma : timeMatchAt (c :: rest) with
      | some r2 =>
          rw [hma] at hr
          cases hr
          exact timeMatchAt_groups _ _ _ _ hma
      | none =>
          rw [hma] at hr
          exact ih h m ap hr

/-- A string that starts with a digit is neither empty nor `"TBD"`. -/
theorem digit_head_ne_tbd (h rest : Str) (hh : h ≠ []) (hd : ∀ c ∈ h, c.isDigit) :
    ¬(h ++ rest = [] ∨ h ++ rest = str "TBD") := by
  cases h with
  | nil => exact absurd rfl hh
  | cons c cs =>
      have hc : c.isDigit := hd c (List.mem_cons_self c cs)
      rintro (he | he)
      · simp at he
      · rw [show str "TBD" = 'T' :: ('B' :: ('D' :: [])) from rfl] at he
        have : c = 'T' := (List.cons.inj he).1
        rw [this] at hc
        exact absurd hc (by decide)

/-- A successful anchored match at the head gives the leftmost match. -/
theorem findTimeMatch_of_matchAt (s : Str) (r : Str × Str × Str)
    (hs : timeMatchAt s = some r) (hne : s ≠ []) : findTimeMatch s = some r := by
  cases s with
  | nil => exact absurd rfl hne
  | cons c rest =>
      simp only [findTimeMatch]
      rw [hs]

/-- C8: on every well-formed time `digits ++ ":" ++ digits ++ " " ++ AM|PM`
(in particular every valid `H:MM AM|PM`), `formatTime` drops the minutes
exactly when they are `00` and otherwise keeps them, joining without the
space; and `formatTime` is idempotent on every string. -/
theorem formatTime_spec :
    (∀ h m ap : Str, h ≠ [] → (∀ c ∈ h, c.isDigit) → m ≠ [] → (∀ c ∈ m, c.isDigit) →
      (ap = str "AM" ∨ ap = str "PM") →
      formatTime (h ++ ':' :: (m ++ ' ' :: ap)) =
        if m = str "00" then h ++ ap else h ++ ':' :: (m ++ ap)) ∧
    (∀ s : Str, formatTime (formatTime s) = formatTime s) := by
  constructor
  · intro h m ap hh hdh hm hdm hap
    have htail : ∀ c r, (' ' :: ap) = c :: r → c.isDigit = false := by
      intro c r hc
      injection hc with h1 _
      rw [← h1]
      decide
    have hma := timeMatchAt_build h m (' ' :: ap) hh hdh hm hdm htail
    have hma2 : timeMatchAt (h ++ ':' :: (m ++ ' ' :: ap)) = some (h, m, ap) := by
      rcases hap with rfl | rfl
      · rw [hma]
        rfl
      · rw [hma]
        rfl

    have hne : h ++ ':' :: (m ++ ' ' :: ap) ≠ [] := by
      cases h with
      | nil => exact absurd rfl hh
      | cons a b => simp
    have hfind := findTimeMatch_of_matchAt _ _ hma2 hne
    have hnottbd := digit_head_ne_tbd h (':' :: (m ++ ' ' :: ap)) hh hdh
    simp only [formatTime, if_neg hnottbd, hfind]
  · intro s
    by_cases h0 : s = [] ∨ s = str "TBD"
    · have hid : formatTime s = s := by simp only [formatTime, if_pos h0]
      rw [hid]
      exact hid
    · cases hm : findTimeMatch s with
      | none =>
          have hid : formatTime s = s := by simp only [formatTime, if_neg h0, hm]
          rw [hid]
          exact hid
      | some r =>
          obtain ⟨h, m, ap⟩ := r
          obtain ⟨hh, hdh, hmne, hdm, hap⟩ := findTimeMatch_groups s h m ap hm
          have hft : formatTime s =
              if m = str "00" then h ++ ap else h ++ ':' :: (m ++ ap) := by
            simp only [formatTime, if_neg h0, hm]
          by_cases hm00 : m = str "00"
          · rw [hft, if_pos hm00]
            have hn1 := digit_head_ne_tbd h ap hh hdh
            have hnoc : ':' ∉ h ++ ap := by
              intro hmem
              rcases List.mem_append.mp hmem with hc | hc
              · exact absurd (hdh ':' hc) (by decide)
              · rcases hap with rfl | rfl
                · exact absurd hc (by decide)
                · exact absurd hc (by decide)
            simp only [formatTime, if_neg hn1, findTimeMatch_no_colon _ hnoc]
          · rw [hft, if_neg hm00]
            have htail : ∀ c r, ap = c :: r → c.isDigit = false := by
              rcases hap with rfl | rfl
              · intro c r hc
                rw [show str "AM" = 'A' :: ('M' :: ([] : Str)) from rfl] at hc
                injection hc with h1 _
                rw [← h1]
                decide
              · intro c r hc
                rw [show str "PM" = 'P' :: ('M' :: ([] : Str)) from rfl] at hc
                injection hc with h1 _
                rw [← h1]
                decide
            have hma := timeMatchAt_build h m ap hh hdh hmne hdm htail
            have hma2 : timeMatchAt (h ++ ':' :: (m ++ ap)) = some (h, m, ap) := by
              rcases hap with rfl | rfl
              · rw [hma]
                rfl
              · rw [hma]
                rfl
            have hne2 : h ++ ':' :: (m ++ ap) ≠ [] := by
              cases h with
              | nil => exact absurd rfl hh
              | cons a b => simp
            have hfind := findTimeMatch_of_matchAt _ _ hma2 hne2
            have hn2 := digit_head_ne_tbd h (':' :: (m ++ ap)) hh hdh
            simp only [formatTime, if_neg hn2, hfind, if_neg hm00]

/-- C8 witness: the spec applied at "4:00 PM" and "9:30 AM", and
idempotence at an arbitrary non-time string. -/
theorem formatTime_spec_witness :
    formatTime (str "4:00 PM") = str "4PM" ∧
    formatTime (str "9:30 AM") = str "9:30AM" ∧
    formatTime (formatTime (str "whenever")) = formatTime (str "whenever") := by
  refine ⟨?_, ?_, formatTime_spec.2 (str "whenever")⟩
  · have := formatTime_spec.1 (str "4") (str "00") (str "PM") (by decide) (by decide)
      (by decide) (by decide) (Or.inr rfl)
    rw [show str "4:00 PM" = str "4" ++ ':' :: (str "00" ++ ' ' :: str "PM") from rfl]
    rw [this]
    decide
  · have := formatTime_spec.1 (str "9") (str "30") (str "AM") (by decide) (by decide)
      (by decide) (by decide) (Or.inl rfl)
    rw [show str "9:30 AM" = str "9" ++ ':' :: (str "30" ++ ' ' :: str "AM") from rfl]
    rw [this]
    decide

/-- "Has a parsed time": the merger's time regexp finds a match. -/
def hasParsedTime (s : Str) : Bool := (findTimeMatch s).isSome

/-- A string with a parsed time is neither `TBD` nor empty. -/
theorem hasParsedTime_not_tbd_prop (s : Str) (h : hasParsedTime s = true) :
    ¬(s = str "TBD" ∨ s = []) := by
  rintro (rfl | rfl)
  · exact absurd h (by decide)
  · exact absurd h (by decide)

/-- A string with a parsed time is neither `TBD` nor empty, so the
comparator does not treat it as TBD. -/
theorem hasParsedTime_not_tbd (s : Str) (h : hasParsedTime s = true) :
    (s == str "TBD" || s == []) = false := by
  by_cases h1 : s = str "TBD"
  · subst h1; exact absurd h (by decide)
  · by_cases h2 : s = []
    · subst h2; exact absurd h (by decide)
    · simp [h1, h2]

/-- The comparator on items with different parsed dates is date order. -/
theorem scheduleLess_dates (a b : ScheduleItem)
    (h : dateEqual (parseDateForSorting (itemDateStr a))
        (parseDateForSorting (itemDateStr b)) = false) :
    scheduleItemLess a b =
      dateBefore (parseDateForSorting (itemDateStr a))
        (parseDateForSorting (itemDateStr b)) := by
  cases a <;> cases b <;>
    simp only [scheduleItemLess, itemDateStr] at h ⊢ <;> simp [h]

/-- C1 (amended): the comparator orders by parsed calendar date
ascending, unparseable dates taking the sentinel 2099-12-31 — so an
unparseable item sorts after every item whose date parses before the
sentinel (not after a parseable post-2099 date); on equal dates Notes
sort before Games; among Games on one date, two parsed times compare by
time-of-day then team order then team name, two TBD times by team order
then team name, and a parsed time sorts before a TBD one. -/
theorem scheduleLess_spec :
    (∀ a b : ScheduleItem,
      dateEqual (parseDateForSorting (itemDateStr a))
          (parseDateForSorting (itemDateStr b)) = false →
      scheduleItemLess a b =
        dateBefore (parseDateForSorting (itemDateStr a))
          (parseDateForSorting (itemDateStr b))) ∧
    (∀ a b : ScheduleItem,
      parseDateForSorting (itemDateStr a) = sentinelDate →
      dateBefore (parseDateForSorting (itemDateStr b)) sentinelDate = true →
      scheduleItemLess b a = true ∧ scheduleItemLess a b = false) ∧
    (∀ (n : Note) (g : Game),
      dateEqual (parseDateForSorting n.date) (parseDateForSorting g.date) = true →
      scheduleItemLess (.note n) (.game g) = true ∧
      scheduleItemLess (.game g) (.note n) = false) ∧
    (∀ gA gB : Game,
      dateEqual (parseDateForSorting gA.date) (parseDateForSorting gB.date) = true →
      hasParsedTime gA.time = true → hasParsedTime gB.time = true →
      scheduleItemLess (.game gA) (.game gB) =
        (decide (parseTimeToMinutes gA.time < parseTimeToMinutes gB.time) ||
          (decide (parseTimeToMinutes gA.time = parseTimeToMinutes gB.time) &&
            (decide (gA.team.order < gB.team.order) ||
              (decide (gA.team.order = gB.team.order) &&
                strLt gA.team.name gB.team.name))))) ∧
    (∀ gA gB : Game,
      dateEqual (parseDateForSorting gA.date) (parseDateForSorting gB.date) = true →
      gA.time = str "TBD" → gB.time = str "TBD" →
      scheduleItemLess (.game gA) (.game gB) =
        (decide (gA.team.order < gB.team.order) ||
          (decide (gA.team.order = gB.team.order) &&
            strLt gA.team.name gB.team.name))) ∧
    (∀ gA gB : Game,
      dateEqual (parseDateForSorting gA.date) (parseDateForSorting gB.date) = true →
      hasParsedTime gA.time = true → gB.time = str "TBD" →
      scheduleItemLess (.game gA) (.game gB) = true ∧
      scheduleItemLess (.game gB) (.game gA) = false) := by
  refine ⟨scheduleLess_dates, ?_, ?_, ?_, ?_, ?_⟩
  · intro a b ha hb
    have hlt : (parseDateForSorting (itemDateStr b)).days < sentinelDate.days := by
      simpa [dateBefore] using hb
    have hne1 : dateEqual (parseDateForSorting (itemDateStr b))
        (parseDateForSorting (itemDateStr a)) = false := by
      rw [ha]
      simp [dateEqual]
      omega
    have hne2 : dateEqual (parseDateForSorting (itemDateStr a))
        (parseDateForSorting (itemDateStr b)) = false := by
      rw [ha]
      simp [dateEqual]
      omega
    constructor
    · rw [scheduleLess_dates b a hne1, ha]
      simpa [dateBefore] using hlt
    · rw [scheduleLess_dates a b hne2, ha]
      simp [dateBefore]
      omega
  · intro n g h
    have hsym : dateEqual (parseDateForSorting g.date) (parseDateForSorting n.date) = true := by
      simp only [dateEqual, Nat.beq_eq_true_eq] at h ⊢
      omega
    constructor
    · simp only [scheduleItemLess, itemDateStr]
      simp [h]
    · simp only [scheduleItemLess, itemDateStr]
      simp [hsym]
  · intro gA gB hdate hA hB
    have hA' := hasParsedTime_not_tbd _ hA
    have hB' := hasParsedTime_not_tbd _ hB
    simp only [scheduleItemLess, itemDateStr] at hdate ⊢
    simp only [hdate, Bool.not_true, Bool.false_eq_true, if_false, hA', hB']
    by_cases ht : parseTimeToMinutes gA.time = parseTimeToMinutes gB.time
    · by_cases ho : gA.team.order = gB.team.order
      · simp [ht, ho]
      · simp [ht, ho]
    · simp [ht]
  · intro gA gB hdate hta htb
    simp only [scheduleItemLess, itemDateStr] at hdate ⊢
    simp only [hdate, hta, htb]
    by_cases ho : gA.team.order = gB.team.order
    · simp [ho]
    · simp [ho]
  · intro gA gB hdate hA htb
    have hA2 := hasParsedTime_not_tbd_prop _ hA
    have hd2 : dateEqual (parseDateForSorting gB.date) (parseDateForSorting gA.date) = true := by
      simp only [dateEqual] at hdate ⊢
      simp only [Nat.beq_eq_true_eq] at hdate
      simp [hdate]
    constructor
    · simp only [scheduleItemLess, itemDateStr]
      simp [hdate, htb, (not_or.mp hA2).1, (not_or.mp hA2).2]
    · simp only [scheduleItemLess, itemDateStr]
      simp [hd2, htb, (not_or.mp hA2).1, (not_or.mp hA2).2]

/-- Fixture game with an unparseable date (parses to the sentinel). -/
def c1GameU : Game := ⟨exTeam2, str "TBA later", str "TBD", none, [], str "Opp", [], [], []⟩

/-- Fixture game with a parseable date after the sentinel. -/
def c1Game2150 : Game := ⟨exTeam2, str "1/1/2150", str "TBD", none, [], str "Opp", [], [], []⟩

/-- C1 counterexample: a game whose date string does not parse (so takes
the sentinel 2099-12-31) sorts BEFORE a game with the real parseable
date 1/1/2150 — the unparseable sentinel item does not sort last, as the
claim states. -/
theorem sentinel_not_last_counterexample :
    parseDateForSorting c1GameU.date = sentinelDate ∧
    parseDateForSorting c1Game2150.date = ⟨2150, 1, 1⟩ ∧
    scheduleItemLess (ScheduleItem.game c1GameU) (ScheduleItem.game c1Game2150) = true ∧
    scheduleItemLess (ScheduleItem.game c1Game2150) (ScheduleItem.game c1GameU) = false := by
  decide

/-- Fixture timed game of team 1. -/
def c1GameA : Game := ⟨exTeam, str "1/5/25", str "5:00 PM", none, [], str "Opp", [], [], []⟩

/-- Fixture timed game of team 2, later time. -/
def c1GameB : Game := ⟨exTeam2, str "1/5/25", str "6:00 PM", none, [], str "Opp", [], [], []⟩

/-- Fixture TBD game of team 1. -/
def c1TbdA : Game := ⟨exTeam, str "1/5/25", str "TBD", none, [], str "Opp", [], [], []⟩

/-- Fixture TBD game of team 2. -/
def c1TbdB : Game := ⟨exTeam2, str "1/5/25", str "TBD", none, [], str "Opp", [], [], []⟩

/-- C1 witness: each clause of the comparator characterization applied
at concrete items (different dates; earlier time first; TBD pair by team
order; timed before TBD both ways). -/
theorem scheduleLess_spec_witness :
    scheduleItemLess (ScheduleItem.note c4Note) (ScheduleItem.game c6GameC) = true ∧
    scheduleItemLess (ScheduleItem.game c1GameA) (ScheduleItem.game c1GameB) = true ∧
    scheduleItemLess (ScheduleItem.game c1TbdA) (ScheduleItem.game c1TbdB) = true ∧
    scheduleItemLess (ScheduleItem.game c1GameA) (ScheduleItem.game c1TbdB) = true ∧
    scheduleItemLess (ScheduleItem.game c1TbdB) (ScheduleItem.game c1GameA) = false := by
  refine ⟨?_, ?_, ?_, ?_, ?_⟩
  · rw [scheduleLess_spec.1 (ScheduleItem.note c4Note) (ScheduleItem.game c6GameC)
      (by decide)]
    decide
  · rw [scheduleLess_spec.2.2.2.1 c1GameA c1GameB (by decide) (by decide) (by decide)]
    decide
  · rw [scheduleLess_spec.2.2.2.2.1 c1TbdA c1TbdB (by decide) rfl rfl]
    decide
  · exact (scheduleLess_spec.2.2.2.2.2 c1GameA c1TbdB (by decide) (by decide) rfl).1
  · exact (scheduleLess_spec.2.2.2.2.2 c1GameA c1TbdB (by decide) (by decide) rfl).2

/-- Fixture game for the sort-stability input. -/
def c3Game (d : String) : Game :=
  ⟨exTeam2, str d, str "5:00 PM", none, [], str "Opp", [], [], []⟩

/-- First note of the equal-date pair (inserted first). -/
def c3Note1 : Note := ⟨str "1/15/25", str "n1", str "All Teams"⟩

/-- Second note of the equal-date pair (inserted second). -/
def c3Note2 : Note := ⟨str "1/15/25", str "n2", str "All Teams"⟩

/-- Twelve games in scrambled date order (a realistic scope size that
pushes `sort.Slice` past its insertion-sort cutoff of 12). -/
def c3Games : List Game :=
  [c3Game "1/20/25", c3Game "1/3/25", c3Game "1/8/25", c3Game "1/27/25",
   c3Game "1/1/25", c3Game "1/14/25", c3Game "1/9/25", c3Game "1/22/25",
   c3Game "1/5/25", c3Game "1/17/25", c3Game "1/11/25", c3Game "1/25/25"]

/-- The note text carried by an item, if any. -/
def itemNoteText? : ScheduleItem → Option Str
  | .note n => some n.text
  | _ => none

/-- C3: `generateHTML` builds the item list with the two equal-date notes
in insertion order n1, n2, but `sort.Slice` (not a stable sort; the
comparator ties equal-date notes) emits them as n2, n1: insertion order
among equal Notes is NOT preserved, against the code's own
"maintain order" comment and the spec. -/
theorem sortSlice_note_order_bug :
    (buildScheduleItems c3Games [c3Note1, c3Note2]).filterMap itemNoteText? =
      [str "n1", str "n2"] ∧
    c3Note1.date = c3Note2.date ∧
    (sortedScheduleItems c3Games [c3Note1, c3Note2]).filterMap itemNoteText? =
      [str "n2", str "n1"] := by decide
